import Mathlib

/-!
Verification of the register-level MCP9808 temperature-sensor driver
(`mcp9808.py`).  The driver talks to the sensor over I2C: every register
access is a register-select write transaction followed by a sized read
transaction (or, for writes, a single write transaction), and the ambient
temperature register packs a 13-bit two's-complement magnitude together
with three alert-flag bits in one 16-bit word.

The embedding below translates the source functions directly:
`__getSigned`, `getAmbientTemp`'s decode step, `checkAlarmFlags`'s flag
comparison, and the transport-facing `__readReg` / `__writeReg` /
`getReg` / `setReg`, the latter modelled by explicit transaction traces
over an injected bus.
-/

namespace Mcp9808

/-! ## Register address constants (mcp9808.py lines 37-44) -/

def regConfig : Nat := 0x01

def regTUpper : Nat := 0x02

def regTLower : Nat := 0x03

def regTCrit : Nat := 0x04

def regTA : Nat := 0x05

def regMfgID : Nat := 0x06

def regDevID : Nat := 0x07

def regRes : Nat := 0x08

/-! ## Alert flag constants (mcp9808.py lines 107-111) -/

def tempAlertCrit : Nat := 0x8000

def tempAlertUpper : Nat := 0x4000

def tempAlertLower : Nat := 0x2000

def tempAlertMask : Nat := 0x1fff

/-- Python's bitwise complement `~tempAlertMask` applied to the 16-bit
word formed from the two register bytes (each below 0x100): on that
domain `w & ~0x1fff` equals `w &&& (0xffff ^^^ 0x1fff)`, keeping bits
13, 14 and 15. -/
def tempAlertMaskCompl : Nat := 0xffff ^^^ tempAlertMask

/-! ## Pure decode helpers -/

/-- Translation of `__getSigned(unsigned, bits)` (mcp9808.py lines
147-164): two's-complement decode, subtracting `1 << bits` when the sign
bit `1 << (bits - 1)` is set.  The Python default `bits = 11` plays no
role in this driver; every call passes 13. -/
def getSigned (unsigned : Nat) (bits : Nat) : Int :=
  if unsigned &&& (1 <<< (bits - 1)) ≠ 0 then
    (unsigned : Int) - ((1 <<< bits : Nat) : Int)
  else
    (unsigned : Int)

/-- Decode step of `getAmbientTemp()` (mcp9808.py lines 243-249) on the
two raw register bytes: combine big-endian, mask out the alert-flag
bits with `tempAlertMask`, two's-complement decode at 13 bits, and
scale by the 0.0625 degree LSB.  The scale is exact in ℚ, as it is in
Python floats for every 13-bit magnitude. -/
def getAmbientTempBytes (b0 b1 : Nat) : ℚ :=
  ((getSigned (((b0 <<< 8) ||| b1) &&& tempAlertMask) 13 : Int) : ℚ) * (0.0625 : ℚ)

/-- Flag extraction step of `checkAlarmFlags` (mcp9808.py line 269):
the ambient-temperature word with the magnitude bits removed,
`((b0 << 8) | b1) & ~tempAlertMask`. -/
def alertFlagBits (b0 b1 : Nat) : Nat :=
  ((b0 <<< 8) ||| b1) &&& tempAlertMaskCompl

/-- Comparison step of `checkAlarmFlags(flags, strict)` (mcp9808.py
lines 253-281) on the two raw register bytes: strict mode requires
every requested flag bit to be present in the device flags, non-strict
mode requires the overlap to be positive; otherwise the default
`retVal = False` is returned. -/
def checkAlarmFlagsBytes (b0 b1 flags : Nat) (strict : Bool) : Bool :=
  if strict then
    if alertFlagBits b0 b1 &&& flags = flags then true else false
  else
    if alertFlagBits b0 b1 &&& flags > 0 then true else false

/-! ## Transport model

The bus transport (quick2wire `I2CMaster.transaction`) is the injected
dependency: a write transaction either succeeds or raises `IOError`,
and a read transaction either returns bytes or raises `IOError`.  Each
driver operation returns its result together with the exact list of
transactions it issued, in order. -/

/-- One I2C bus transaction: `writing_bytes(addr, bytes...)` or
`reading(addr, count)`. -/
inductive Transaction where
  | write (addr : Nat) (bytes : List Nat)
  | read (addr : Nat) (count : Nat)
deriving DecidableEq

/-- Errors surfaced by the driver: `IOError` re-raised from the bus, or
`ValueError` for a write to a non-writable register. -/
inductive DriverError where
  | ioError
  | invalidArgument
deriving DecidableEq

/-- Behaviour of the injected bus: whether a given write transaction
succeeds, and what a given read transaction returns (`none` models the
transport raising `IOError`). -/
structure I2CBus where
  writeOk : Nat → List Nat → Bool
  readData : Nat → Nat → Option (List Nat)

/-- Translation of `__readReg(register, byteCt)` (mcp9808.py lines
113-133): a register-select write of the single address byte, then a
read of `byteCt` bytes; an `IOError` from either transaction aborts the
sequence and is re-raised. -/
def readReg (bus : I2CBus) (addr register byteCt : Nat) :
    Except DriverError (List Nat) × List Transaction :=
  if bus.writeOk addr [register] then
    match bus.readData addr byteCt with
    | some data =>
        (Except.ok data,
          [Transaction.write addr [register], Transaction.read addr byteCt])
    | none =>
        (Except.error DriverError.ioError,
          [Transaction.write addr [register], Transaction.read addr byteCt])
  else
    (Except.error DriverError.ioError, [Transaction.write addr [register]])

/-- Translation of `__writeReg(register, data)` (mcp9808.py lines
135-145): one write transaction carrying the register byte followed by
the data byte. -/
def writeReg (bus : I2CBus) (addr register data : Nat) :
    Except DriverError Unit × List Transaction :=
  if bus.writeOk addr [register, data] then
    (Except.ok (), [Transaction.write addr [register, data]])
  else
    (Except.error DriverError.ioError, [Transaction.write addr [register, data]])

/-- Translation of `getReg(register)` (mcp9808.py lines 175-189): reads
2 bytes for registers below 8 and 1 byte otherwise; the width is
computed here and never supplied by the caller. -/
def getReg (bus : I2CBus) (addr register : Nat) :
    Except DriverError (List Nat) × List Transaction :=
  if register < 8 then
    readReg bus addr register 2
  else
    readReg bus addr register 1

/-- Translation of `setReg(register, value)` (mcp9808.py lines
191-202): registers `regConfig` (0x01) through `regTCrit` (0x04) are
forwarded to `__writeReg`; anything else raises `ValueError` before any
bus activity. -/
def setReg (bus : I2CBus) (addr register value : Nat) :
    Except DriverError Unit × List Transaction :=
  if regConfig ≤ register ∧ register ≤ regTCrit then
    writeReg bus addr register value
  else
    (Except.error DriverError.invalidArgument, [])

/-- A bus on which every transaction succeeds; reads return zero-filled
payloads of the requested length. -/
def okBus : I2CBus where
  writeOk := fun _ _ => true
  readData := fun _ count => some (List.replicate count 0)

/-- A bus on which every transaction fails with an I/O error. -/
def deadBus : I2CBus where
  writeOk := fun _ _ => false
  readData := fun _ _ => none

/-! ## Helper lemmas -/

/-- The sign-bit test of `__getSigned` at width 13 is exactly the test
of bit 12 of the input. -/
lemma getSigned_testBit12 (m : Nat) :
    getSigned m 13 = if m.testBit 12 then (m : Int) - 8192 else (m : Int) := by
  have h2 := Nat.and_two_pow m 12
  unfold getSigned
  have e1 : (1 : Nat) <<< 12 = 2 ^ 12 := Nat.one_shiftLeft 12
  have e2 : (1 : Nat) <<< 13 = 8192 := by decide
  rcases hb : m.testBit 12 with _ | _
  · rw [hb] at h2
    simp only [Bool.toNat_false, Nat.zero_mul, zero_mul] at h2
    rw [e1, h2]
    simp
  · rw [hb] at h2
    simp only [Bool.toNat_true, Nat.one_mul, one_mul] at h2
    rw [e1, h2, e2]
    rw [if_pos (by norm_num : ¬((2 : Nat) ^ 12 = 0))]
    norm_num

/-- Below 2^13, bit 12 is set exactly on the upper half of the range. -/
lemma testBit12_iff_le {m : Nat} (hm : m < 8192) : m.testBit 12 = true ↔ 4096 ≤ m := by
  simp only [Nat.testBit_to_div_mod, decide_eq_true_eq]
  have h : (2 : Nat) ^ 12 = 4096 := by norm_num
  rw [h]
  omega

/-- Absorbing a mask on the right is the same as containing every bit of
the mask. -/
lemma and_eq_right_iff (a f : Nat) :
    a &&& f = f ↔ ∀ i, f.testBit i = true → a.testBit i = true := by
  constructor
  · intro h i hi
    have h' := congrArg (fun n => n.testBit i) h
    simp only [Nat.testBit_and] at h'
    rw [hi] at h'
    simpa using h'
  · intro h
    apply Nat.eq_of_testBit_eq
    intro i
    rw [Nat.testBit_and]
    cases hf : f.testBit i
    · simp
    · simp [h i hf]

/-- A bitwise intersection is nonzero exactly when some bit is shared. -/
lemma and_ne_zero_iff (a f : Nat) :
    a &&& f ≠ 0 ↔ ∃ i, f.testBit i = true ∧ a.testBit i = true := by
  constructor
  · intro h
    obtain ⟨i, hi⟩ := Nat.ne_zero_implies_bit_true h
    rw [Nat.testBit_and] at hi
    exact ⟨i, (Bool.and_eq_true _ _ |>.mp hi).2, (Bool.and_eq_true _ _ |>.mp hi).1⟩
  · rintro ⟨i, hf, ha⟩ h0
    have h' := congrArg (fun n => n.testBit i) h0
    simp only [Nat.testBit_and, Nat.zero_testBit] at h'
    rw [ha, hf] at h'
    simp at h'

/-- Case analysis for `__readReg`: the select write fails, the follow-up
read fails, or both succeed; each case fixes the result and the exact
transaction trace. -/
lemma readReg_cases (bus : I2CBus) (a r c : Nat) :
    (bus.writeOk a [r] = false ∧
      readReg bus a r c = (Except.error DriverError.ioError, [Transaction.write a [r]]))
    ∨ (bus.writeOk a [r] = true ∧ bus.readData a c = none ∧
      readReg bus a r c = (Except.error DriverError.ioError,
        [Transaction.write a [r], Transaction.read a c]))
    ∨ (∃ data, bus.writeOk a [r] = true ∧ bus.readData a c = some data ∧
      readReg bus a r c = (Except.ok data,
        [Transaction.write a [r], Transaction.read a c])) := by
  rcases hw : bus.writeOk a [r] with _ | _
  · exact Or.inl ⟨rfl, by simp [readReg, hw]⟩
  · rcases hd : bus.readData a c with _ | data
    · exact Or.inr (Or.inl ⟨rfl, rfl, by simp [readReg, hw, hd]⟩)
    · exact Or.inr (Or.inr ⟨data, rfl, rfl, by simp [readReg, hw, hd]⟩)

/-- Reformulation of `getReg` through its width choice. -/
lemma getReg_eq (bus : I2CBus) (a r : Nat) :
    getReg bus a r = readReg bus a r (if r < 8 then 2 else 1) := by
  unfold getReg
  by_cases hr : r < 8 <;> simp [hr]

/-! ## Claim theorems -/

/-- C1: for every ambient-temp register word, the decode masks the top
3 flag bits with 0x1fff, interprets the 13-bit magnitude as
`magnitude - 2^13` exactly when bit 12 is set and as-is otherwise, and
scales by 0.0625 = 1/16 degrees Celsius per LSB; raw bytes 0x01 0x94
decode to 25.25 and word 0x1ff0 decodes to -1.0. -/
theorem getAmbientTemp_decode :
    (∀ b0 b1 : Nat,
      getAmbientTempBytes b0 b1 =
        (if (((b0 <<< 8) ||| b1) &&& tempAlertMask).testBit 12 then
          ((((b0 <<< 8) ||| b1) &&& tempAlertMask : Nat) : ℚ) - 8192
        else
          ((((b0 <<< 8) ||| b1) &&& tempAlertMask : Nat) : ℚ)) * (1 / 16))
    ∧ getAmbientTempBytes 0x01 0x94 = 25.25
    ∧ getAmbientTempBytes 0x1f 0xf0 = -1 := by
  refine ⟨?_, ?_, ?_⟩
  · intro b0 b1
    unfold getAmbientTempBytes
    rw [getSigned_testBit12]
    rw [show (0.0625 : ℚ) = 1 / 16 from by norm_num]
    rcases h : (((b0 <<< 8) ||| b1) &&& tempAlertMask).testBit 12 with _ | _ <;> simp
  · unfold getAmbientTempBytes
    rw [show (((0x01 : Nat) <<< 8 ||| 0x94) &&& tempAlertMask) = 404 from by decide]
    rw [show getSigned 404 13 = 404 from by decide]
    norm_num
  · unfold getAmbientTempBytes
    rw [show (((0x1f : Nat) <<< 8 ||| 0xf0) &&& tempAlertMask) = 8176 from by decide]
    rw [show getSigned 8176 13 = -16 from by decide]
    norm_num

/-- C2: at width 13, `__getSigned` returns its input unchanged below
4096 and input minus 8192 from 4096 up, with the stated boundary
values at 4095, 4096 and 8191. -/
theorem getSigned_thirteen_bits :
    (∀ u : Nat, u ≤ 8191 →
      getSigned u 13 = if u < 4096 then (u : Int) else (u : Int) - 8192)
    ∧ getSigned 4095 13 = 4095
    ∧ getSigned 4096 13 = -4096
    ∧ getSigned 8191 13 = -1 := by
  refine ⟨?_, by decide, by decide, by decide⟩
  intro u hu
  rw [getSigned_testBit12 u]
  by_cases h : u < 4096
  · have hb : u.testBit 12 = false := by
      rw [← Bool.not_eq_true, testBit12_iff_le (by omega)]
      omega
    rw [hb, if_neg (by simp), if_pos h]
  · have hb : u.testBit 12 = true := (testBit12_iff_le (by omega)).mpr (by omega)
    rw [hb, if_pos rfl, if_neg h]

/-- Witness for C2: the sign branch is taken at the concrete input
5000. -/
theorem getSigned_thirteen_bits_witness :
    getSigned 5000 13 = (5000 : Int) - 8192 := by
  have h := getSigned_thirteen_bits.1 5000 (by norm_num)
  simpa using h

/-- C3: strict `checkAlarmFlags` holds exactly when every requested
flag bit is present among the device's flag bits 13-15; extra device
flags are permitted (word 0xa194, which also carries the below-lower
flag, still matches a critical-only request), and a request for
critical and above-upper fails when only critical is set. -/
theorem checkAlarmFlags_strict_allOf :
    (∀ b0 b1 flags : Nat,
      checkAlarmFlagsBytes b0 b1 flags true = true ↔
        alertFlagBits b0 b1 &&& flags = flags)
    ∧ (∀ b0 b1 flags : Nat,
      checkAlarmFlagsBytes b0 b1 flags true = true ↔
        ∀ i, flags.testBit i = true → (alertFlagBits b0 b1).testBit i = true)
    ∧ checkAlarmFlagsBytes 0xa1 0x94 tempAlertCrit true = true
    ∧ checkAlarmFlagsBytes 0x81 0x94 (tempAlertCrit ||| tempAlertUpper) true = false := by
  have hbase : ∀ b0 b1 flags : Nat,
      checkAlarmFlagsBytes b0 b1 flags true = true ↔
        alertFlagBits b0 b1 &&& flags = flags := by
    intro b0 b1 flags
    unfold checkAlarmFlagsBytes
    split <;> simp_all
  refine ⟨hbase, ?_, by decide, by decide⟩
  intro b0 b1 flags
  rw [hbase, and_eq_right_iff]

/-- Witness for C3: the strict match at word 0xa194 against the
critical flag, evaluated concretely. -/
theorem checkAlarmFlags_strict_allOf_witness :
    alertFlagBits 0xa1 0x94 &&& tempAlertCrit = tempAlertCrit :=
  (checkAlarmFlags_strict_allOf.1 0xa1 0x94 tempAlertCrit).mp (by decide)

/-- C4: non-strict `checkAlarmFlags` holds exactly when the requested
flags overlap the device's flag bits 13-15; a request for above-upper
against a device showing only the critical flag returns false. -/
theorem checkAlarmFlags_nonstrict_any :
    (∀ b0 b1 flags : Nat,
      checkAlarmFlagsBytes b0 b1 flags false = true ↔
        alertFlagBits b0 b1 &&& flags ≠ 0)
    ∧ (∀ b0 b1 flags : Nat,
      checkAlarmFlagsBytes b0 b1 flags false = true ↔
        ∃ i, flags.testBit i = true ∧ (alertFlagBits b0 b1).testBit i = true)
    ∧ checkAlarmFlagsBytes 0x81 0x94 tempAlertUpper false = false := by
  have hbase : ∀ b0 b1 flags : Nat,
      checkAlarmFlagsBytes b0 b1 flags false = true ↔
        alertFlagBits b0 b1 &&& flags ≠ 0 := by
    intro b0 b1 flags
    unfold checkAlarmFlagsBytes
    split <;> simp_all
    omega
  refine ⟨hbase, ?_, by decide⟩
  intro b0 b1 flags
  rw [hbase, and_ne_zero_iff]

/-- Witness for C4: the non-strict overlap at word 0xa194 against the
critical flag, evaluated concretely. -/
theorem checkAlarmFlags_nonstrict_any_witness :
    alertFlagBits 0xa1 0x94 &&& tempAlertCrit ≠ 0 :=
  (checkAlarmFlags_nonstrict_any.1 0xa1 0x94 tempAlertCrit).mp (by decide)

/-- C5, counterexample: extracting the flag bits of word 0xa194 does
not yield the critical flag alone. -/
theorem alertFlagBitsA194_not_critOnly :
    alertFlagBits 0xa1 0x94 ≠ tempAlertCrit := by decide

/-- C5, amended: the flag bits of word 0xa194 are 0xa000, so the
critical-exceeded and below-lower flags are set while above-upper is
clear. -/
theorem alertFlagBitsA194_crit_and_lower :
    alertFlagBits 0xa1 0x94 = tempAlertCrit ||| tempAlertLower
    ∧ alertFlagBits 0xa1 0x94 &&& tempAlertCrit ≠ 0
    ∧ alertFlagBits 0xa1 0x94 &&& tempAlertUpper = 0
    ∧ alertFlagBits 0xa1 0x94 &&& tempAlertLower ≠ 0 := by decide

/-- C6: `setReg` on any register outside 0x01-0x04 fails with the
invalid-argument error and issues no bus transaction at all, while
registers inside that range are never rejected that way. -/
theorem setReg_writable_range :
    ∀ (bus : I2CBus) (a r v : Nat),
      (¬(regConfig ≤ r ∧ r ≤ regTCrit) →
        setReg bus a r v = (Except.error DriverError.invalidArgument, []))
      ∧ ((regConfig ≤ r ∧ r ≤ regTCrit) →
        (setReg bus a r v).1 ≠ Except.error DriverError.invalidArgument) := by
  intro bus a r v
  constructor
  · intro h
    simp [setReg, h]
  · intro h
    simp only [setReg, if_pos h, writeReg]
    split <;> simp

/-- Witness for C6: writing the read-only ambient-temp register is
rejected with no transaction, even on a fully healthy bus. -/
theorem setReg_writable_range_witness :
    setReg okBus 0x18 regTA 0 = (Except.error DriverError.invalidArgument, []) :=
  (setReg_writable_range okBus 0x18 regTA 0).1 (by decide)

/-- C7: for every valid register address 0x01-0x08, any read
transaction `getReg` issues has width 2 for addresses up to 0x07 and
width 1 for 0x08, and that read is issued whenever the select write
succeeds; the width is computed from the address alone. -/
theorem getReg_read_width :
    ∀ (bus : I2CBus) (a r : Nat), 1 ≤ r → r ≤ 8 →
      (∀ c, Transaction.read a c ∈ (getReg bus a r).2 →
        c = if r = 8 then 1 else 2)
      ∧ (bus.writeOk a [r] = true →
        Transaction.read a (if r = 8 then 1 else 2) ∈ (getReg bus a r).2) := by
  intro bus a r h1 h8
  have hif : (if r = 8 then 1 else 2) = (if r < 8 then 2 else 1) := by
    by_cases h : r < 8
    · rw [if_pos h, if_neg (by omega)]
    · rw [if_neg h, if_pos (by omega)]
  rw [hif, getReg_eq]
  rcases readReg_cases bus a r (if r < 8 then 2 else 1) with
    ⟨hw, heq⟩ | ⟨hw, hd, heq⟩ | ⟨data, hw, hd, heq⟩ <;> rw [heq] <;> constructor
  · intro c hc
    simp at hc
  · intro hwt
    rw [hwt] at hw
    simp at hw
  · intro c hc
    simp at hc
    exact hc
  · intro _
    simp
  · intro c hc
    simp at hc
    exact hc
  · intro _
    simp

/-- Witness for C7: reading the 16-bit ambient-temp register on a
healthy bus issues a 2-byte read transaction. -/
theorem getReg_read_width_witness :
    Transaction.read 0x18 2 ∈ (getReg okBus 0x18 regTA).2 := by
  simpa [regTA] using
    (getReg_read_width okBus 0x18 regTA (by decide) (by decide)).2 rfl

/-- C8: every successful `getReg` issues exactly two transactions in
order: the register-select write of the raw address byte, then the
fixed-width read. -/
theorem getReg_two_transactions :
    ∀ (bus : I2CBus) (a r : Nat) (data : List Nat),
      (getReg bus a r).1 = Except.ok data →
      (getReg bus a r).2 =
        [Transaction.write a [r], Transaction.read a (if r < 8 then 2 else 1)] := by
  intro bus a r data h
  rw [getReg_eq] at h ⊢
  rcases readReg_cases bus a r (if r < 8 then 2 else 1) with
    ⟨_, heq⟩ | ⟨_, _, heq⟩ | ⟨d, _, _, heq⟩ <;> rw [heq] at h ⊢
  simp at h

/-- Witness for C8: the concrete two-transaction trace of a successful
ambient-temp register read. -/
theorem getReg_two_transactions_witness :
    (getReg okBus 0x18 regTA).2 =
      [Transaction.write 0x18 [regTA], Transaction.read 0x18 2] := by
  simpa [regTA] using
    getReg_two_transactions okBus 0x18 regTA (List.replicate 2 0) rfl

/-- C9: `getReg` fails with the I/O error exactly when the select
write or the follow-up read fails at the transport, and it never
issues more than the two transactions of one attempt (no retry). -/
theorem getReg_ioError_iff :
    ∀ (bus : I2CBus) (a r : Nat),
      ((getReg bus a r).1 = Except.error DriverError.ioError ↔
        bus.writeOk a [r] = false ∨
          bus.readData a (if r < 8 then 2 else 1) = none)
      ∧ (getReg bus a r).2.length ≤ 2 := by
  intro bus a r
  rw [getReg_eq]
  rcases readReg_cases bus a r (if r < 8 then 2 else 1) with
    ⟨hw, heq⟩ | ⟨hw, hd, heq⟩ | ⟨d, hw, hd, heq⟩ <;> rw [heq] <;> constructor
  · simp [hw]
  · simp
  · simp [hd]
  · simp
  · simp [hw, hd]
  · simp

/-- Witness for C9: on a bus whose transactions all fail, reading the
ambient-temp register surfaces the I/O error. -/
theorem getReg_ioError_iff_witness :
    (getReg deadBus 0x18 regTA).1 = Except.error DriverError.ioError :=
  ((getReg_ioError_iff deadBus 0x18 regTA).1).mpr (Or.inl rfl)

/-- C10: with an empty requested flag mask, `checkAlarmFlags` returns
true in strict mode and false in non-strict mode, whatever the
device's flag bits are. -/
theorem checkAlarmFlags_empty_mask :
    ∀ b0 b1 : Nat,
      checkAlarmFlagsBytes b0 b1 0 true = true ∧
      checkAlarmFlagsBytes b0 b1 0 false = false := by
  intro b0 b1
  refine ⟨?_, ?_⟩ <;> simp [checkAlarmFlagsBytes]

end Mcp9808
